import Mathlib

/-!
Verification development for the thoughtstream-log journaling application.

The embedding covers, translated from the source:
* the JavaScript string primitives the export path relies on
  (`String.prototype.split` with a one-character separator,
  `String.prototype.trim` truthiness, base64 `btoa`/`atob`, `TextEncoder`,
  `Date.prototype.toISOString`, `JSON.stringify` with 2-space indent);
* the `JournalDatabase` record store (`src/lib/journalDB.ts`):
  `save`, `update`, `getAll`, `getById`, `delete`, `clear`, `getStats`,
  with the IndexedDB object store modelled as a list of entries keyed by `id`;
* the export serializer and encryption wrapper of
  `src/components/ExportModal.tsx`: `generatePreview` (records part),
  `handleExport`, `deriveKey`, `encryptData`.

WebCrypto (`crypto.subtle`) is a platform API, not repository code; it is
modelled as an abstract `SubtleCrypto` structure whose idealized
correctness facts appear as hypotheses of the theorems that need them.
Randomness (`crypto.getRandomValues`) and the wall clock (`new Date()`)
are passed in explicitly.
-/

/-! ## JavaScript string / platform primitives -/

/-- Whitespace characters recognised by `String.prototype.trim`
(ECMAScript WhiteSpace and LineTerminator code points). -/
def isJsWhitespace (c : Char) : Bool :=
  c.toNat = 9 || c.toNat = 10 || c.toNat = 11 || c.toNat = 12 || c.toNat = 13 ||
  c.toNat = 32 || c.toNat = 160 || c.toNat = 0x1680 ||
  (0x2000 ≤ c.toNat && c.toNat ≤ 0x200A) ||
  c.toNat = 0x2028 || c.toNat = 0x2029 || c.toNat = 0x202F ||
  c.toNat = 0x205F || c.toNat = 0x3000 || c.toNat = 0xFEFF

/-- Model of `String.prototype.trim`: drop leading and trailing whitespace. -/
def jsTrim (s : String) : String :=
  String.mk (((s.data.dropWhile isJsWhitespace).reverse.dropWhile isJsWhitespace).reverse)

/-- Auxiliary for `jsSplit`: split a character list at every occurrence of
the separator, keeping empty pieces, accumulating the current piece reversed. -/
def splitOnCharAux (sep : Char) : List Char → List Char → List (List Char)
  | [], acc => [acc.reverse]
  | c :: rest, acc =>
    if c = sep then acc.reverse :: splitOnCharAux sep rest []
    else splitOnCharAux sep rest (c :: acc)

/-- Model of `String.prototype.split` with a single-character separator:
`"a..b".split('.') = ["a","","b"]`, `"".split('.') = [""]`. -/
def jsSplit (s : String) (sep : Char) : List String :=
  (splitOnCharAux sep s.data []).map String.mk

/-- UTF-8 encoding of one code point, written with `/`, `%`, `+` so that
`omega` can reason about it. -/
def utf8EncodeChar (c : Nat) : List Nat :=
  if c < 128 then [c]
  else if c < 2048 then [192 + c / 64, 128 + c % 64]
  else if c < 65536 then [224 + c / 4096, 128 + c / 64 % 64, 128 + c % 64]
  else [240 + c / 262144, 128 + c / 4096 % 64, 128 + c / 64 % 64, 128 + c % 64]

/-- Model of `TextEncoder.prototype.encode`: UTF-8 bytes of a string. -/
def textEncode (s : String) : List Nat :=
  s.data.flatMap (fun ch => utf8EncodeChar ch.toNat)

/-- Is a byte a UTF-8 continuation byte (`10xxxxxx`)? -/
def utf8Cont (b : Nat) : Bool := 128 ≤ b && b < 192

/-- Read one continuation byte after a two-byte leader with high bits `hi`. -/
def utf8Take1 (hi : Nat) : List Nat → Option (Nat × List Nat)
  | b1 :: rest => if utf8Cont b1 then some (hi * 64 + (b1 - 128), rest) else none
  | [] => none

/-- Read two continuation bytes after a three-byte leader. -/
def utf8Take2 (hi : Nat) : List Nat → Option (Nat × List Nat)
  | b1 :: b2 :: rest =>
    if utf8Cont b1 && utf8Cont b2 then
      some (hi * 4096 + (b1 - 128) * 64 + (b2 - 128), rest)
    else none
  | _ => none

/-- Read three continuation bytes after a four-byte leader. -/
def utf8Take3 (hi : Nat) : List Nat → Option (Nat × List Nat)
  | b1 :: b2 :: b3 :: rest =>
    if utf8Cont b1 && utf8Cont b2 && utf8Cont b3 then
      some (hi * 262144 + (b1 - 128) * 4096 + (b2 - 128) * 64 + (b3 - 128), rest)
    else none
  | _ => none

/-- Parse one UTF-8 encoded code point from the front of a byte list,
returning it with the remaining bytes. Continuation bytes are checked;
overlong forms are not rejected (the encoder never produces them). -/
def utf8DecodeOne : List Nat → Option (Nat × List Nat)
  | [] => none
  | b :: rest =>
    if b < 128 then some (b, rest)
    else if b < 192 then none
    else if b < 224 then utf8Take1 (b - 192) rest
    else if b < 240 then utf8Take2 (b - 224) rest
    else if b < 248 then utf8Take3 (b - 240) rest
    else none

/-- Repeatedly parse code points; the fuel bounds the number of steps
(one byte is consumed per step, so the list length is always enough). -/
def utf8DecodeLoop : Nat → List Nat → Option (List Nat)
  | _, [] => some []
  | 0, _ :: _ => none
  | fuel + 1, b :: rest =>
    match utf8DecodeOne (b :: rest) with
    | some (c, rest2) => (utf8DecodeLoop fuel rest2).map (fun cs => c :: cs)
    | none => none

/-- Inverse of `textEncode` at the byte level: parse UTF-8 byte sequences
back into code points. -/
def utf8Decode (l : List Nat) : Option (List Nat) := utf8DecodeLoop l.length l

/-- Decode UTF-8 bytes to a string (model of `TextDecoder.prototype.decode`). -/
def utf8DecodeString (l : List Nat) : Option String :=
  (utf8Decode l).map (fun cs => String.mk (cs.map Char.ofNat))

/-- Character of the standard base64 alphabet for a 6-bit value. -/
def b64Char (n : Nat) : Char :=
  if n < 26 then Char.ofNat (65 + n)
  else if n < 52 then Char.ofNat (97 + (n - 26))
  else if n < 62 then Char.ofNat (48 + (n - 52))
  else if n = 62 then '+'
  else '/'

/-- Six-bit value of a base64 alphabet character, `none` for other characters
(including the padding character). -/
def b64Val (c : Char) : Option Nat :=
  if 65 ≤ c.toNat ∧ c.toNat ≤ 90 then some (c.toNat - 65)
  else if 97 ≤ c.toNat ∧ c.toNat ≤ 122 then some (c.toNat - 97 + 26)
  else if 48 ≤ c.toNat ∧ c.toNat ≤ 57 then some (c.toNat - 48 + 52)
  else if c = '+' then some 62
  else if c = '/' then some 63
  else none

/-- Standard base64 encoding of a byte list, with `=` padding
(the character-level content of `btoa`). -/
def base64Encode : List Nat → List Char
  | [] => []
  | [a] => [b64Char (a / 4), b64Char (a % 4 * 16), '=', '=']
  | [a, b] => [b64Char (a / 4), b64Char (a % 4 * 16 + b / 16), b64Char (b % 16 * 4), '=']
  | a :: b :: c :: rest =>
    b64Char (a / 4) :: b64Char (a % 4 * 16 + b / 16) ::
    b64Char (b % 16 * 4 + c / 64) :: b64Char (c % 64) :: base64Encode rest

/-- Standard base64 decoding (the character-level content of `atob`):
groups of four characters, padding allowed only at the end. -/
def base64Decode : List Char → Option (List Nat)
  | [] => some []
  | c1 :: c2 :: c3 :: c4 :: rest =>
    match b64Val c1, b64Val c2 with
    | some v1, some v2 =>
      if c3 = '=' then
        if c4 = '=' ∧ rest = [] ∧ v2 % 16 = 0 then some [v1 * 4 + v2 / 16] else none
      else
        match b64Val c3 with
        | some v3 =>
          if c4 = '=' then
            if rest = [] ∧ v3 % 4 = 0 then
              some [v1 * 4 + v2 / 16, v2 % 16 * 16 + v3 / 4]
            else none
          else
            match b64Val c4 with
            | some v4 =>
              (base64Decode rest).map
                (fun bs => (v1 * 4 + v2 / 16) :: (v2 % 16 * 16 + v3 / 4) :: (v3 % 4 * 64 + v4) :: bs)
            | none => none
        | none => none
    | _, _ => none
  | _ => none

/-- Model of `btoa(String.fromCharCode(...bytes))`: base64 text of a byte list. -/
def btoa (bs : List Nat) : String := String.mk (base64Encode bs)

/-- Model of `atob` followed by reading the code units back as bytes. -/
def atob (s : String) : Option (List Nat) := base64Decode s.data

/-- Model of `blobToBase64` from `ExportModal.tsx`: the success path of
reading a blob as a data URL and stripping the prefix yields the base64
text of the blob's bytes. -/
def blobToBase64 (bs : List Nat) : String := btoa bs

/-! ## JSON.stringify model (fixed shapes, 2-space indent) -/

/-- Hexadecimal digit character (lower case, as produced by JSON escapes). -/
def hexDigit (n : Nat) : Char :=
  if n < 10 then Char.ofNat (48 + n) else Char.ofNat (97 + (n - 10))

/-- Escape of one character inside a JSON string literal, as produced by
`JSON.stringify`. -/
def jsonEscapeChar (c : Char) : String :=
  if c = '"' then "\\\""
  else if c = '\\' then "\\\\"
  else if c.toNat = 8 then "\\b"
  else if c = '\t' then "\\t"
  else if c = '\n' then "\\n"
  else if c.toNat = 12 then "\\f"
  else if c.toNat = 13 then "\\r"
  else if c.toNat < 32 then
    "\\u00" ++ String.mk [hexDigit (c.toNat / 16), hexDigit (c.toNat % 16)]
  else String.mk [c]

/-- JSON string literal for a string value. -/
def jsonQuote (s : String) : String :=
  "\"" ++ String.join (s.data.map jsonEscapeChar) ++ "\""

/-- Indentation produced by `JSON.stringify(v, null, 2)` at nesting depth `d`. -/
def indentN (d : Nat) : String := String.mk (List.replicate (2 * d) ' ')

/-- Pretty-printed JSON array at depth `d` from already-rendered items. -/
def jsonArray (d : Nat) (items : List String) : String :=
  if items.isEmpty then "[]"
  else
    "[\n" ++ String.intercalate ",\n" (items.map (fun it => indentN (d + 1) ++ it)) ++
    "\n" ++ indentN d ++ "]"

/-- Pretty-printed JSON object at depth `d` from rendered field values. -/
def jsonObject (d : Nat) (fields : List (String × String)) : String :=
  if fields.isEmpty then "\x7b\x7d"
  else
    "\x7b\n" ++
    String.intercalate ",\n"
      (fields.map (fun kv => indentN (d + 1) ++ jsonQuote kv.1 ++ ": " ++ kv.2)) ++
    "\n" ++ indentN d ++ "\x7d"

/-- Pretty-printed JSON array of strings at depth `d`. -/
def jsonStrList (d : Nat) (xs : List String) : String :=
  jsonArray d (xs.map jsonQuote)

/-- Compact JSON object (no indent argument to `JSON.stringify`). -/
def jsonObjectC (fields : List (String × String)) : String :=
  "\x7b" ++
  String.intercalate "," (fields.map (fun kv => jsonQuote kv.1 ++ ":" ++ kv.2)) ++
  "\x7d"

/-- Compact JSON array of strings. -/
def jsonStrListC (xs : List String) : String :=
  "[" ++ String.intercalate "," (xs.map jsonQuote) ++ "]"

/-! ## Date model -/

/-- A JavaScript `Date`: milliseconds since the Unix epoch. -/
structure JsDate where
  millis : Int
deriving DecidableEq, Repr

/-- Civil calendar date (year, month, day) from a count of days since
1970-01-01, proleptic Gregorian. -/
def civilFromDays (z0 : Int) : Int × Nat × Nat :=
  let z := z0 + 719468
  let era := z.fdiv 146097
  let doe := (z - era * 146097).toNat
  let yoe := (doe - doe / 1460 + doe / 36524 - doe / 146096) / 365
  let y : Int := (yoe : Int) + era * 400
  let doy := doe - (365 * yoe + yoe / 4 - yoe / 100)
  let mp := (5 * doy + 2) / 153
  let d := doy - (153 * mp + 2) / 5 + 1
  let m := if mp < 10 then mp + 3 else mp - 9
  (if m ≤ 2 then y + 1 else y, m, d)

/-- Left-pad a decimal rendering to two digits. -/
def pad2 (n : Nat) : String := if n < 10 then "0" ++ toString n else toString n

/-- Left-pad a decimal rendering to three digits. -/
def pad3 (n : Nat) : String :=
  if n < 10 then "00" ++ toString n else if n < 100 then "0" ++ toString n else toString n

/-- Left-pad a decimal rendering to four digits. -/
def pad4 (n : Nat) : String :=
  if n < 10 then "000" ++ toString n
  else if n < 100 then "00" ++ toString n
  else if n < 1000 then "0" ++ toString n
  else toString n

/-- Model of `Date.prototype.toISOString`:
`YYYY-MM-DDTHH:mm:ss.sssZ` for the given epoch milliseconds. -/
def isoOfMillis (ms : Int) : String :=
  let days := ms.fdiv 86400000
  let msod := (ms - days * 86400000).toNat
  let ymd := civilFromDays days
  pad4 ymd.1.toNat ++ "-" ++ pad2 ymd.2.1 ++ "-" ++ pad2 ymd.2.2 ++ "T" ++
  pad2 (msod / 3600000) ++ ":" ++ pad2 (msod % 3600000 / 60000) ++ ":" ++
  pad2 (msod % 60000 / 1000) ++ "." ++ pad3 (msod % 1000) ++ "Z"

/-- The `toISOString` text of a `JsDate`. -/
def JsDate.toISOString (d : JsDate) : String := isoOfMillis d.millis

/-! ## Data model (`src/types/journal.ts`) -/

/-- The AI summary shape (`EntrySummary` in `summarise.ts`, reused as the
`summary` field of `JournalEntry` and `ExportData`). -/
structure Summary where
  highlights : List String
  decisions : List String
  actions : List String
  risks : List String
  mood : String
deriving DecidableEq, Repr

/-- Structure `JournalEntry` from `types/journal.ts`. The audio blob is modelled by
its byte content. -/
structure JournalEntry where
  id : String
  content : String
  tags : List String
  timestamp : JsDate
  audioBlob : Option (List Nat)
  audioUrl : Option String
  transcript : Option String
  summary : Option Summary
  createdAt : JsDate
  updatedAt : JsDate
deriving DecidableEq, Repr

/-- Structure `JournalStats` from `types/journal.ts`. -/
structure JournalStats where
  totalEntries : Nat
  totalStorageSize : Nat
  oldestEntry : Option JsDate
  newestEntry : Option JsDate
deriving DecidableEq, Repr

/-- The three export formats. -/
inductive ExportFormat where
  | json
  | markdown
  | text
deriving DecidableEq, Repr

/-- Text tag of an export format, as it appears in filenames and in the
`format` field of an encrypted envelope. -/
def ExportFormat.tag : ExportFormat → String
  | .json => "json"
  | .markdown => "markdown"
  | .text => "text"

/-- Structure `ExportOptions` from `types/journal.ts`. -/
structure ExportOptions where
  format : ExportFormat
  includeAudio : Bool
  includeTags : Bool
  selectedEntries : Option (List String)
  encrypt : Bool
  passphrase : Option String
  dateRange : Option (JsDate × JsDate)
deriving DecidableEq, Repr

/-- Structure `EncryptedExport` from `types/journal.ts`: the envelope produced by
`encryptData`. The `alg` and `kdf` fields carry their literal string tags. -/
structure EncryptedExport where
  alg : String
  kdf : String
  iterations : Nat
  salt : String
  iv : String
  ciphertext : String
  format : ExportFormat
deriving DecidableEq, Repr

/-- Structure `ExportData` from `types/journal.ts`: one per-entry export record. -/
structure ExportData where
  date : String
  highlights : List String
  tags : List String
  entry : String
  audio : Option String
  transcript : Option String
  summary : Option Summary
  timestamp : String
deriving DecidableEq, Repr

/-! ## Record store (`src/lib/journalDB.ts`)

The IndexedDB object store keyed by `id` is modelled as a list of entries;
`store.put` replaces the record with a matching id or inserts a new one. -/

namespace JournalDatabase

/-- Operation `save(entry)`: `store.put` — insert or overwrite by `id`. -/
def save (st : List JournalEntry) (entry : JournalEntry) : List JournalEntry :=
  if st.any (fun e => e.id = entry.id) then
    st.map (fun e => if e.id = entry.id then entry else e)
  else st ++ [entry]

/-- Operation `update(entry)`: the source returns `this.save(entry)` unchanged. -/
def update (st : List JournalEntry) (entry : JournalEntry) : List JournalEntry :=
  save st entry

/-- Ascending-by-`timestamp` order of the IndexedDB `timestamp` index. -/
def indexAsc (a b : JournalEntry) : Bool :=
  decide (a.timestamp.millis ≤ b.timestamp.millis)

/-- The comparator `(a, b) => new Date(b.timestamp).getTime() - new
Date(a.timestamp).getTime()` orders `a` before `b` when `b`'s time is at
most `a`'s. -/
def sortDesc (a b : JournalEntry) : Bool :=
  decide (b.timestamp.millis ≤ a.timestamp.millis)

/-- Operation `getAll()`: read all entries through the `timestamp` index (ascending),
then sort descending by display timestamp. -/
def getAll (st : List JournalEntry) : List JournalEntry :=
  ((st.mergeSort indexAsc).mergeSort sortDesc)

/-- Operation `getById(id)`: `store.get(id)` with `result || null`. -/
def getById (st : List JournalEntry) (id : String) : Option JournalEntry :=
  st.find? (fun e => e.id = id)

/-- Operation `delete(id)`: `store.delete(id)` — remove the record with the key,
a no-op when the key is absent. -/
def delete (st : List JournalEntry) (id : String) : List JournalEntry :=
  st.filter (fun e => !(e.id == id))

/-- Operation `clear()`: remove every record. -/
def clear (_ : List JournalEntry) : List JournalEntry := []

/-- Compact `JSON.stringify` of a `JournalEntry` as used by `getStats`:
`Date` fields render as ISO strings, a `Blob` renders as an empty object,
absent optional fields are omitted. -/
def entryJson (e : JournalEntry) : String :=
  jsonObjectC
    ([("id", jsonQuote e.id), ("content", jsonQuote e.content),
      ("tags", jsonStrListC e.tags),
      ("timestamp", jsonQuote e.timestamp.toISOString)] ++
     (match e.audioBlob with
      | some _ => [("audioBlob", "\x7b\x7d")]
      | none => []) ++
     (match e.audioUrl with
      | some u => [("audioUrl", jsonQuote u)]
      | none => []) ++
     (match e.transcript with
      | some t => [("transcript", jsonQuote t)]
      | none => []) ++
     (match e.summary with
      | some s =>
        [("summary",
          jsonObjectC
            [("highlights", jsonStrListC s.highlights),
             ("decisions", jsonStrListC s.decisions),
             ("actions", jsonStrListC s.actions),
             ("risks", jsonStrListC s.risks),
             ("mood", jsonQuote s.mood)])]
      | none => []) ++
     [("createdAt", jsonQuote e.createdAt.toISOString),
      ("updatedAt", jsonQuote e.updatedAt.toISOString)])

/-- Model of `String.prototype.length`: UTF-16 code-unit count. -/
def jsLength (s : String) : Nat :=
  s.data.foldl (fun acc c => acc + (if c.toNat < 65536 then 1 else 2)) 0

/-- Operation `getStats()`: aggregate count, serialized+blob size, and oldest/newest
creation timestamp over `getAll()`. -/
def getStats (st : List JournalEntry) : JournalStats :=
  let entries := getAll st
  if entries.length = 0 then
    { totalEntries := 0, totalStorageSize := 0, oldestEntry := none, newestEntry := none }
  else
    let totalStorageSize :=
      entries.foldl
        (fun size e =>
          size + jsLength (entryJson e) +
          (match e.audioBlob with
           | some bs => bs.length
           | none => 0))
        0
    let timestamps :=
      (entries.map (fun e => e.createdAt)).mergeSort
        (fun a b => decide (a.millis ≤ b.millis))
    { totalEntries := entries.length, totalStorageSize := totalStorageSize,
      oldestEntry := timestamps.head?, newestEntry := timestamps.getLast? }

/-- Save a list of entries in order (repeated `save` calls). -/
def saveAll (st : List JournalEntry) (es : List JournalEntry) : List JournalEntry :=
  es.foldl save st

end JournalDatabase

/-! ## Encryption wrapper (`ExportModal.tsx`) -/

/-- Abstract interface to the WebCrypto primitives used by the export
modal: PBKDF2-SHA256 key derivation (passphrase, salt, iteration count,
requested key length in bytes) and AES-GCM encryption and decryption
(key bytes, IV bytes, data bytes). WebCrypto is a platform API, not code
of this repository, so its behaviour enters the theorems as hypotheses. -/
structure SubtleCrypto where
  pbkdf2Sha256 : String → List Nat → Nat → Nat → List Nat
  aesGcmEncrypt : List Nat → List Nat → List Nat → List Nat
  aesGcmDecrypt : List Nat → List Nat → List Nat → Option (List Nat)

/-- Model of `crypto.getRandomValues(new Uint8Array(n))` for an explicit
random source: `n` bytes, each reduced modulo 256. -/
def getRandomValues (n : Nat) (rand : Nat → Nat) : List Nat :=
  (List.range n).map (fun i => rand i % 256)

/-- Function `deriveKey(passphrase, salt)`: PBKDF2 with SHA-256, 100,000 iterations,
requesting an AES-GCM key of length 256 bits (32 bytes). -/
def deriveKey (C : SubtleCrypto) (passphrase : String) (salt : List Nat) : List Nat :=
  C.pbkdf2Sha256 passphrase salt 100000 32

/-- Function `encryptData(data, passphrase)`: fresh 16-byte salt and 12-byte IV,
key derived from the passphrase, AES-GCM over the UTF-8 bytes of `data`,
all binary fields base64-encoded. The `format` field is initialised to
`json` ("will be updated based on actual format"). -/
def encryptData (C : SubtleCrypto) (randSalt randIv : Nat → Nat)
    (data passphrase : String) : EncryptedExport :=
  let salt := getRandomValues 16 randSalt
  let iv := getRandomValues 12 randIv
  let key := deriveKey C passphrase salt
  let encrypted := C.aesGcmEncrypt key iv (textEncode data)
  { alg := "AES-GCM", kdf := "PBKDF2-SHA256", iterations := 100000,
    salt := btoa salt, iv := btoa iv, ciphertext := btoa encrypted,
    format := ExportFormat.json }

/-- Modelled from the spec: the compatible decryptor is not implemented in
the repository ("consumed only by a compatible decryptor"). Per §4.3,
decryption derives the key from the supplied passphrase, the stored salt
and the stored iteration count, then AES-GCM-decrypts the stored
ciphertext with the stored nonce; authentication failure yields no
plaintext. -/
def decryptData (C : SubtleCrypto) (env : EncryptedExport)
    (passphrase : String) : Option String :=
  match atob env.salt, atob env.iv, atob env.ciphertext with
  | some salt, some iv, some ct =>
    let key := C.pbkdf2Sha256 passphrase salt env.iterations 32
    match C.aesGcmDecrypt key iv ct with
    | some ptBytes => utf8DecodeString ptBytes
    | none => none
  | _, _, _ => none

/-! ## Export serializer (`ExportModal.tsx`) -/

/-- Build one `ExportData` record from an entry, keeping the first `n`
period-separated fragments of the content whose `trim()` is truthy
(`n` is 5 in `handleExport` and 3 in `generatePreview`). Optional fields
follow JavaScript truthiness: an absent or empty transcript is omitted. -/
def buildExportData (n : Nat) (opts : ExportOptions) (e : JournalEntry) : ExportData :=
  { date := (jsSplit e.timestamp.toISOString 'T').headD ""
  , highlights := ((jsSplit e.content '.').take n).filter (fun h => !(jsTrim h == ""))
  , tags := if opts.includeTags then e.tags else []
  , entry := e.content
  , timestamp := e.timestamp.toISOString
  , transcript :=
      match e.transcript with
      | some t => if t = "" then none else some t
      | none => none
  , summary := e.summary
  , audio :=
      if opts.includeAudio then
        match e.audioBlob with
        | some bs => some (blobToBase64 bs)
        | none => none
      else none }

/-- The JSON rendering of one export record: `JSON.stringify` object at
depth 1, keys in insertion order (`date`, `highlights`, `tags`, `entry`,
`timestamp`, then the conditionally assigned `transcript`, `summary`,
`audio`). -/
def exportDataJson (x : ExportData) : String :=
  jsonObject 1
    ([("date", jsonQuote x.date), ("highlights", jsonStrList 2 x.highlights),
      ("tags", jsonStrList 2 x.tags), ("entry", jsonQuote x.entry),
      ("timestamp", jsonQuote x.timestamp)] ++
     (match x.transcript with
      | some t => [("transcript", jsonQuote t)]
      | none => []) ++
     (match x.summary with
      | some s =>
        [("summary",
          jsonObject 2
            [("highlights", jsonStrList 3 s.highlights),
             ("decisions", jsonStrList 3 s.decisions),
             ("actions", jsonStrList 3 s.actions),
             ("risks", jsonStrList 3 s.risks),
             ("mood", jsonQuote s.mood)])]
      | none => []) ++
     (match x.audio with
      | some a => [("audio", jsonQuote a)]
      | none => []))

/-- Model of `JSON.stringify(exportData, null, 2)`: the JSON export text. -/
def renderJsonExport (xs : List ExportData) : String :=
  jsonArray 0 (xs.map exportDataJson)

/-- Markdown rendering of one export record. -/
def renderMarkdownEntry (x : ExportData) : String :=
  let base :=
    "# " ++ x.date ++ "\n\n" ++
    (if x.tags.length > 0 then "**Tags:** " ++ String.intercalate ", " x.tags ++ "\n\n"
     else "") ++
    x.entry
  let c1 :=
    match x.transcript with
    | some t => if t = "" then base else base ++ "\n\n**Transcript:** \"" ++ t ++ "\""
    | none => base
  let c2 :=
    match x.summary with
    | some s =>
      let c :=
        c1 ++ "\n\n**AI Summary:**\n- **Highlights:** " ++
        String.intercalate ", " s.highlights ++ "\n- **Mood:** " ++ s.mood
      if s.actions.length > 0 then
        c ++ "\n- **Actions:** " ++ String.intercalate ", " s.actions
      else c
    | none => c1
  let c3 :=
    match x.audio with
    | some a => if a = "" then c2 else c2 ++ "\n\n[Audio data included]"
    | none => c2
  c3 ++ "\n\n---\n"

/-- Plain-text rendering of one export record. The summary is dumped with
`JSON.stringify(data.summary, null, 2)`. -/
def renderTextEntry (x : ExportData) : String :=
  let base :=
    "Date: " ++ x.date ++ "\n" ++
    (if x.tags.length > 0 then "Tags: " ++ String.intercalate ", " x.tags ++ "\n" else "") ++
    "Content: " ++ x.entry
  let c1 :=
    match x.transcript with
    | some t => if t = "" then base else base ++ "\nTranscript: \"" ++ t ++ "\""
    | none => base
  let c2 :=
    match x.summary with
    | some s =>
      c1 ++ "\nSummary: " ++
      jsonObject 0
        [("highlights", jsonStrList 1 s.highlights),
         ("decisions", jsonStrList 1 s.decisions),
         ("actions", jsonStrList 1 s.actions),
         ("risks", jsonStrList 1 s.risks),
         ("mood", jsonQuote s.mood)]
    | none => c1
  let c3 :=
    match x.audio with
    | some a => if a = "" then c2 else c2 ++ "\nAudio: [Base64 data included]"
    | none => c2
  c3 ++ "\n\n"

/-- The export records built by `handleExport`: the selected entries,
each turned into an `ExportData` with up to 5 highlight fragments. -/
def exportRecords (entries : List JournalEntry) (selectedIds : List String)
    (opts : ExportOptions) : List ExportData :=
  (entries.filter (fun e => selectedIds.contains e.id)).map (buildExportData 5 opts)

/-- The records part of `generatePreview`: the first 3 selected entries,
each with up to 3 highlight fragments. -/
def generatePreviewData (entries : List JournalEntry) (opts : ExportOptions) :
    List ExportData :=
  (entries.take 3).map (buildExportData 3 opts)

/-- Validation failures of `handleExport` (surfaced as destructive toasts
before any serialization). -/
inductive ExportError where
  | noEntriesSelected
  | passphraseError
deriving DecidableEq, Repr

/-- The result handed to the clipboard / download step. -/
structure ExportResult where
  content : String
  filename : String
  mimeType : String
deriving DecidableEq, Repr

/-- The two export actions. -/
inductive ExportAction where
  | copy
  | download
deriving DecidableEq, Repr

/-- What reaches the outside world: a clipboard write of the content, or a
file download with name, MIME type and content. -/
inductive ExportOutput where
  | clipboard (text : String)
  | file (filename mimeType text : String)
deriving DecidableEq, Repr

/-- Dispatch of an export result on the chosen action. -/
def exportOutput (action : ExportAction) (r : ExportResult) : ExportOutput :=
  match action with
  | .copy => .clipboard r.content
  | .download => .file r.filename r.mimeType r.content

/-- Model of `JSON.stringify(encrypted, null, 2)`: the serialized envelope, keys in
insertion order. -/
def encryptedExportJson (env : EncryptedExport) : String :=
  jsonObject 0
    [("alg", jsonQuote env.alg), ("kdf", jsonQuote env.kdf),
     ("iterations", toString env.iterations), ("salt", jsonQuote env.salt),
     ("iv", jsonQuote env.iv), ("ciphertext", jsonQuote env.ciphertext),
     ("format", jsonQuote env.format.tag)]

/-- Model of `filename.replace(/\.(json|md|txt)$/, '.encrypted.json')`. -/
def replaceExtEncrypted (f : String) : String :=
  if ".json".data.isSuffixOf f.data then
    String.mk (f.data.take (f.data.length - 5)) ++ ".encrypted.json"
  else if ".md".data.isSuffixOf f.data then
    String.mk (f.data.take (f.data.length - 3)) ++ ".encrypted.json"
  else if ".txt".data.isSuffixOf f.data then
    String.mk (f.data.take (f.data.length - 4)) ++ ".encrypted.json"
  else f

/-- The pure core of `handleExport`: validation, per-entry record
construction, format-specific rendering, optional encryption. The wall
clock (`new Date()`, used only in the suggested filename), the randomness
of `getRandomValues` and the WebCrypto implementation are explicit
parameters. -/
def handleExport (entries : List JournalEntry) (selectedEntries : List String)
    (opts : ExportOptions) (passphrase confirmPassphrase : String)
    (now : JsDate) (randSalt randIv : Nat → Nat) (C : SubtleCrypto) :
    Except ExportError ExportResult :=
  if selectedEntries.length = 0 then Except.error ExportError.noEntriesSelected
  else if opts.encrypt ∧ (passphrase = "" ∨ passphrase ≠ confirmPassphrase) then
    Except.error ExportError.passphraseError
  else
    let exportData := exportRecords entries selectedEntries opts
    let dateTag := (jsSplit now.toISOString 'T').headD ""
    let content :=
      match opts.format with
      | ExportFormat.json => renderJsonExport exportData
      | ExportFormat.markdown =>
        String.intercalate "\n" (exportData.map renderMarkdownEntry)
      | ExportFormat.text => String.intercalate "\n" (exportData.map renderTextEntry)
    let filename :=
      match opts.format with
      | ExportFormat.json => "journal-export-" ++ dateTag ++ ".json"
      | ExportFormat.markdown => "journal-export-" ++ dateTag ++ ".md"
      | ExportFormat.text => "journal-export-" ++ dateTag ++ ".txt"
    let mimeType :=
      match opts.format with
      | ExportFormat.json => "application/json"
      | ExportFormat.markdown => "text/markdown"
      | ExportFormat.text => "text/plain"
    if opts.encrypt ∧ passphrase ≠ "" then
      let env := encryptData C randSalt randIv content passphrase
      let env := { env with format := opts.format }
      Except.ok
        { content := encryptedExportJson env,
          filename := replaceExtEncrypted filename,
          mimeType := "application/json" }
    else
      Except.ok { content := content, filename := filename, mimeType := mimeType }

/-! ## Concrete instances used by claims and witnesses -/

/-- Truncate or zero-pad a byte list to exactly `l` bytes. -/
def padTo (l : Nat) (xs : List Nat) : List Nat :=
  xs.take l ++ List.replicate (l - xs.length) 0

/-- A concrete `SubtleCrypto` instance satisfying the idealized hypotheses
of the crypto theorems: the "derived key" is the padded UTF-8 encoding of
the passphrase, "encryption" stores the key (length-prefixed) next to the
plaintext, "decryption" succeeds exactly when the supplied key matches. -/
def toyCrypto : SubtleCrypto :=
  { pbkdf2Sha256 := fun p _ _ l => padTo l (textEncode p)
  , aesGcmEncrypt := fun k _ pt => k.length :: (k ++ pt)
  , aesGcmDecrypt := fun k _ ct =>
      match ct with
      | [] => none
      | n :: rest =>
        if n = k.length ∧ rest.take n = k then some (rest.drop n) else none }

/-- A fixed random source (all zero bytes). -/
def rand0 : Nat → Nat := fun _ => 0

/-- A fixed wall-clock instant. -/
def now0 : JsDate := ⟨1700000000000⟩

/-- Unencrypted JSON export options with tags included. -/
def optsJson : ExportOptions :=
  { format := ExportFormat.json, includeAudio := false, includeTags := true,
    selectedEntries := none, encrypt := false, passphrase := none, dateRange := none }

/-- Unencrypted markdown export options with tags included. -/
def optsMarkdown : ExportOptions :=
  { format := ExportFormat.markdown, includeAudio := false, includeTags := true,
    selectedEntries := none, encrypt := false, passphrase := none, dateRange := none }

/-- Unencrypted plain-text export options with tags included. -/
def optsText : ExportOptions :=
  { format := ExportFormat.text, includeAudio := false, includeTags := true,
    selectedEntries := none, encrypt := false, passphrase := none, dateRange := none }

/-- The single entry of spec §8.6: content `"Hello world. Second
sentence."`, tags `["Work"]`, no audio. -/
def entryC3 : JournalEntry :=
  { id := "e1", content := "Hello world. Second sentence.", tags := ["Work"],
    timestamp := ⟨1700000000000⟩, audioBlob := none, audioUrl := none,
    transcript := none, summary := none,
    createdAt := ⟨1700000000000⟩, updatedAt := ⟨1700000000000⟩ }

/-- An entry whose content starts with five periods: five whitespace-only
leading fragments followed by five non-empty ones. -/
def entryC10 : JournalEntry :=
  { id := "e10", content := ".....one.two.three.four.five", tags := [],
    timestamp := ⟨1700000000000⟩, audioBlob := none, audioUrl := none,
    transcript := none, summary := none,
    createdAt := ⟨1700000000000⟩, updatedAt := ⟨1700000000000⟩ }

/-- An entry whose content starts with three periods, for the preview
variant of the same observation. -/
def entryC10b : JournalEntry :=
  { id := "e10b", content := "...a.b.c", tags := [],
    timestamp := ⟨1700000000000⟩, audioBlob := none, audioUrl := none,
    transcript := none, summary := none,
    createdAt := ⟨1700000000000⟩, updatedAt := ⟨1700000000000⟩ }

/-- A small entry used by record-store witnesses. -/
def entryW1 : JournalEntry :=
  { id := "w1", content := "alpha", tags := [], timestamp := ⟨1000⟩,
    audioBlob := none, audioUrl := none, transcript := none, summary := none,
    createdAt := ⟨1000⟩, updatedAt := ⟨1000⟩ }

/-- A second small entry with a distinct id. -/
def entryW2 : JournalEntry :=
  { id := "w2", content := "beta", tags := [], timestamp := ⟨2000⟩,
    audioBlob := none, audioUrl := none, transcript := none, summary := none,
    createdAt := ⟨2000⟩, updatedAt := ⟨2000⟩ }

/-- The per-entry highlights computation as claim C2 words it: up to `n`
leading period-separated fragments, each kept fragment trimmed of
surrounding whitespace, empty fragments dropped. Defined from the claim's
words (not from the source) to compare against the code's behaviour. -/
def claimedHighlights (n : Nat) (content : String) : List String :=
  (((jsSplit content '.').take n).filter (fun h => !(jsTrim h == ""))).map jsTrim

/-! ## Helper lemmas: base64 -/

/-- A six-bit value decodes back from its base64 character. -/
theorem b64Val_b64Char : ∀ n, n < 64 → b64Val (b64Char n) = some n := by decide

/-- No base64 alphabet character is the padding character. -/
theorem b64Char_ne_pad : ∀ n, n < 64 → b64Char n ≠ '=' := by decide

/-- Base64 decoding inverts base64 encoding on byte lists. -/
theorem base64Decode_encode :
    ∀ bs : List Nat, (∀ b ∈ bs, b < 256) → base64Decode (base64Encode bs) = some bs := by
  intro bs
  induction bs using base64Encode.induct with
  | case1 =>
    intro _
    rfl
  | case2 a =>
    intro h
    have ha : a < 256 := h a (by simp)
    have h1 := b64Val_b64Char (a / 4) (by omega)
    have h2 := b64Val_b64Char (a % 4 * 16) (by omega)
    have h3 : a % 4 * 16 % 16 = 0 := by omega
    simp [base64Encode, base64Decode, h1, h2, h3]
    omega
  | case3 a b =>
    intro h
    have ha : a < 256 := h a (by simp)
    have hb : b < 256 := h b (by simp)
    have h1 := b64Val_b64Char (a / 4) (by omega)
    have h2 := b64Val_b64Char (a % 4 * 16 + b / 16) (by omega)
    have h3 := b64Val_b64Char (b % 16 * 4) (by omega)
    have h4 := b64Char_ne_pad (b % 16 * 4) (by omega)
    have h5 : b % 16 * 4 % 4 = 0 := by omega
    simp [base64Encode, base64Decode, h1, h2, h3, h4, h5]
    omega
  | case4 a b c rest ih =>
    intro h
    have ha : a < 256 := h a (by simp)
    have hb : b < 256 := h b (by simp)
    have hc : c < 256 := h c (by simp)
    have h1 := b64Val_b64Char (a / 4) (by omega)
    have h2 := b64Val_b64Char (a % 4 * 16 + b / 16) (by omega)
    have h3 := b64Val_b64Char (b % 16 * 4 + c / 64) (by omega)
    have h4 := b64Val_b64Char (c % 64) (by omega)
    have h5 := b64Char_ne_pad (b % 16 * 4 + c / 64) (by omega)
    have h6 := b64Char_ne_pad (c % 64) (by omega)
    have hrest := ih (fun x hx => h x (by simp [hx]))
    simp [base64Encode, base64Decode, h1, h2, h3, h4, h5, h6, hrest]
    omega

/-- String-level base64 round trip: `atob (btoa bs) = some bs` for bytes. -/
theorem atob_btoa (bs : List Nat) (h : ∀ b ∈ bs, b < 256) : atob (btoa bs) = some bs :=
  base64Decode_encode bs h

/-- Bytes produced by `getRandomValues` are below 256. -/
theorem getRandomValues_lt (n : Nat) (rand : Nat → Nat) :
    ∀ b ∈ getRandomValues n rand, b < 256 := by
  intro b hb
  simp [getRandomValues] at hb
  obtain ⟨i, _, hi⟩ := hb
  omega

/-- Function `getRandomValues n` produces exactly `n` bytes. -/
theorem getRandomValues_length (n : Nat) (rand : Nat → Nat) :
    (getRandomValues n rand).length = n := by
  simp [getRandomValues]

/-! ## Helper lemmas: UTF-8 -/

/-- Every `Char` code point is below 0x110000. -/
theorem char_toNat_lt (c : Char) : c.toNat < 1114112 := by
  rcases c with ⟨v, h⟩
  simp [Char.toNat]
  rcases h with h | ⟨h1, h2⟩ <;> omega

/-- UTF-8 bytes of a valid code point are below 256. -/
theorem utf8EncodeChar_lt (c : Nat) (hc : c < 1114112) :
    ∀ b ∈ utf8EncodeChar c, b < 256 := by
  intro b hb
  unfold utf8EncodeChar at hb
  split at hb
  · simp at hb
    omega
  · split at hb
    · simp at hb
      omega
    · split at hb
      · simp at hb
        omega
      · simp at hb
        omega

/-- UTF-8 bytes of a string are below 256. -/
theorem textEncode_lt (s : String) : ∀ b ∈ textEncode s, b < 256 := by
  intro b hb
  simp [textEncode] at hb
  obtain ⟨ch, _, hch⟩ := hb
  exact utf8EncodeChar_lt ch.toNat (char_toNat_lt ch) b hch

/-- Parsing one code point from the UTF-8 bytes of a valid code point
prepended to any byte list returns that code point and the rest. -/
theorem utf8DecodeOne_encodeChar (c : Nat) (hc : c < 1114112) (rest : List Nat) :
    utf8DecodeOne (utf8EncodeChar c ++ rest) = some (c, rest) := by
  unfold utf8EncodeChar
  by_cases h1 : c < 128
  · simp only [if_pos h1, List.cons_append, List.nil_append]
    simp only [utf8DecodeOne]
    rw [if_pos h1]
  · by_cases h2 : c < 2048
    · simp only [if_neg h1, if_pos h2, List.cons_append, List.nil_append]
      simp only [utf8DecodeOne]
      rw [if_neg (by omega), if_neg (by omega), if_pos (by omega)]
      simp only [utf8Take1]
      rw [if_pos (by simp only [utf8Cont, Bool.and_eq_true, decide_eq_true_eq]; omega)]
      have hv : (192 + c / 64 - 192) * 64 + (128 + c % 64 - 128) = c := by omega
      rw [hv]
    · by_cases h3 : c < 65536
      · simp only [if_neg h1, if_neg h2, if_pos h3, List.cons_append, List.nil_append]
        simp only [utf8DecodeOne]
        rw [if_neg (by omega), if_neg (by omega), if_neg (by omega), if_pos (by omega)]
        simp only [utf8Take2]
        rw [if_pos (by simp only [utf8Cont, Bool.and_eq_true, decide_eq_true_eq]; omega)]
        have hv : (224 + c / 4096 - 224) * 4096 + (128 + c / 64 % 64 - 128) * 64 +
            (128 + c % 64 - 128) = c := by omega
        rw [hv]
      · simp only [if_neg h1, if_neg h2, if_neg h3, List.cons_append, List.nil_append]
        simp only [utf8DecodeOne]
        rw [if_neg (by omega), if_neg (by omega), if_neg (by omega), if_neg (by omega),
          if_pos (by omega)]
        simp only [utf8Take3]
        rw [if_pos (by simp only [utf8Cont, Bool.and_eq_true, decide_eq_true_eq]; omega)]
        have hv : (240 + c / 262144 - 240) * 262144 + (128 + c / 4096 % 64 - 128) * 4096 +
            (128 + c / 64 % 64 - 128) * 64 + (128 + c % 64 - 128) = c := by omega
        rw [hv]

/-- A UTF-8 encoding is never empty. -/
theorem utf8EncodeChar_length_pos (c : Nat) : 0 < (utf8EncodeChar c).length := by
  unfold utf8EncodeChar
  split
  · simp
  · split
    · simp
    · split
      · simp
      · simp

/-- With enough fuel, the decode loop inverts the UTF-8 encoding of a
character list. -/
theorem utf8DecodeLoop_flatMap :
    ∀ (cs : List Char) (fuel : Nat),
      (cs.flatMap (fun ch => utf8EncodeChar ch.toNat)).length ≤ fuel →
      utf8DecodeLoop fuel (cs.flatMap (fun ch => utf8EncodeChar ch.toNat)) =
        some (cs.map Char.toNat) := by
  intro cs
  induction cs with
  | nil =>
    intro fuel _
    cases fuel <;> rfl
  | cons ch tail ih =>
    intro fuel hfuel
    rw [List.flatMap_cons] at hfuel
    rw [List.flatMap_cons]
    have hpos := utf8EncodeChar_length_pos ch.toNat
    rcases henc : utf8EncodeChar ch.toNat with _ | ⟨b, bs⟩
    · rw [henc] at hpos
      simp at hpos
    · rw [henc] at hfuel
      simp only [List.length_append, List.length_cons] at hfuel
      rcases fuel with _ | f
      · omega
      · rw [List.cons_append]
        simp only [utf8DecodeLoop]
        rw [show (b :: (bs ++ tail.flatMap fun ch => utf8EncodeChar ch.toNat)) =
            ((b :: bs) ++ tail.flatMap fun ch => utf8EncodeChar ch.toNat) from rfl]
        rw [← henc, utf8DecodeOne_encodeChar ch.toNat (char_toNat_lt ch)]
        simp [ih f (by omega)]

/-- Decoding the UTF-8 bytes of a character list yields its code points. -/
theorem utf8Decode_flatMap (cs : List Char) :
    utf8Decode (cs.flatMap (fun ch => utf8EncodeChar ch.toNat)) =
    some (cs.map Char.toNat) :=
  utf8DecodeLoop_flatMap cs _ (Nat.le_refl _)

/-- UTF-8 decoding inverts `textEncode`. -/
theorem utf8DecodeString_textEncode (s : String) :
    utf8DecodeString (textEncode s) = some s := by
  obtain ⟨data⟩ := s
  simp only [utf8DecodeString, textEncode, utf8Decode_flatMap, Option.map_some', List.map_map]
  rw [show (Char.ofNat ∘ Char.toNat) = id from funext fun c => Char.ofNat_toNat c,
    List.map_id]

/-- Function `textEncode` is injective. -/
theorem textEncode_injective : Function.Injective textEncode := by
  intro a b h
  have ha := utf8DecodeString_textEncode a
  rw [h, utf8DecodeString_textEncode b] at ha
  exact (Option.some.inj ha).symm

/-! ## Helper lemmas: trim truthiness -/

/-- Applying `trim()` to a string gives empty exactly when every character is
whitespace. -/
theorem jsTrim_eq_empty_iff (s : String) :
    jsTrim s = "" ↔ ∀ c ∈ s.data, isJsWhitespace c := by
  unfold jsTrim
  constructor
  · intro h c hc
    have hl : ((s.data.dropWhile isJsWhitespace).reverse.dropWhile isJsWhitespace).reverse
        = [] := by
      have := congrArg String.data h
      simpa using this
    rw [List.reverse_eq_nil_iff, List.dropWhile_eq_nil_iff] at hl
    have h2 : ∀ x ∈ s.data.dropWhile isJsWhitespace, isJsWhitespace x :=
      fun x hx => hl x (List.mem_reverse.mpr hx)
    have hc2 : c ∈ s.data.takeWhile isJsWhitespace ++ s.data.dropWhile isJsWhitespace := by
      rw [List.takeWhile_append_dropWhile]
      exact hc
    rcases List.mem_append.mp hc2 with h3 | h3
    · exact List.mem_takeWhile_imp h3
    · exact h2 c h3
  · intro h
    have h1 : s.data.dropWhile isJsWhitespace = [] := List.dropWhile_eq_nil_iff.mpr h
    rw [h1]
    rfl

/-- The highlight filter `h => h.trim()` keeps a fragment exactly when it
contains a non-whitespace character. -/
theorem highlightFilter_eq_any (s : String) :
    (!(jsTrim s == "")) = s.data.any (fun c => !isJsWhitespace c) := by
  rcases hx : jsTrim s == "" with _ | _
  · have hne : ¬ jsTrim s = "" := by simpa using hx
    simp only [Bool.not_false]
    symm
    rw [List.any_eq_true]
    by_contra hno
    push_neg at hno
    apply hne
    rw [jsTrim_eq_empty_iff]
    intro c hc
    have := hno c hc
    simpa using this
  · have heq : jsTrim s = "" := by simpa using hx
    rw [jsTrim_eq_empty_iff] at heq
    simp only [Bool.not_true]
    symm
    rw [List.any_eq_false]
    intro c hc
    simp [heq c hc]

/-! ## Helper lemmas: the concrete crypto instance -/

/-- Function `padTo` always produces the requested length. -/
theorem padTo_length (l : Nat) (xs : List Nat) : (padTo l xs).length = l := by
  simp [padTo]
  omega

/-- The derived key always has the requested length in the concrete
instance. -/
theorem toyCrypto_kdf_length :
    ∀ p s i l, (toyCrypto.pbkdf2Sha256 p s i l).length = l :=
  fun p _ _ l => padTo_length l (textEncode p)

/-- Decryption with the matching key succeeds in the concrete instance. -/
theorem toyCrypto_decrypt_encrypt (k iv pt : List Nat) :
    toyCrypto.aesGcmDecrypt k iv (toyCrypto.aesGcmEncrypt k iv pt) = some pt := by
  show (if k.length = k.length ∧ (k ++ pt).take k.length = k then
      some ((k ++ pt).drop k.length) else none) = some pt
  rw [if_pos ⟨rfl, List.take_left k pt⟩, List.drop_left]

/-- Decryption with any other key fails in the concrete instance. -/
theorem toyCrypto_decrypt_wrong (k k2 iv pt : List Nat) (hne : k2 ≠ k) :
    toyCrypto.aesGcmDecrypt k2 iv (toyCrypto.aesGcmEncrypt k iv pt) = none := by
  show (if k.length = k2.length ∧ (k ++ pt).take k.length = k2 then
      some ((k ++ pt).drop k.length) else none) = none
  rw [if_neg]
  rintro ⟨h1, h2⟩
  apply hne
  rw [← h2, List.take_left]

/-! ## Helper lemmas: record store -/

/-- Operation `save` on a store that does not contain the id appends the entry. -/
theorem save_of_fresh_id (st : List JournalEntry) (e : JournalEntry)
    (h : ∀ x ∈ st, x.id ≠ e.id) : JournalDatabase.save st e = st ++ [e] := by
  unfold JournalDatabase.save
  rw [if_neg]
  rw [List.any_eq_true]
  rintro ⟨x, hx, hxe⟩
  exact h x hx (by simpa using hxe)

/-- Saving entries with pairwise-distinct fresh ids appends them in order. -/
theorem saveAll_of_nodup_ids :
    ∀ (es st : List JournalEntry),
      (∀ x ∈ es, ∀ y ∈ st, y.id ≠ x.id) →
      (es.map (fun x => x.id)).Nodup →
      JournalDatabase.saveAll st es = st ++ es := by
  intro es
  induction es with
  | nil =>
    intro st _ _
    simp [JournalDatabase.saveAll]
  | cons e tail ih =>
    intro st hdisj hnd
    have hsave : JournalDatabase.save st e = st ++ [e] :=
      save_of_fresh_id st e (fun x hx => hdisj e (by simp) x hx)
    have step : JournalDatabase.saveAll st (e :: tail) =
        JournalDatabase.saveAll (JournalDatabase.save st e) tail := rfl
    rw [step, hsave]
    rw [List.map_cons, List.nodup_cons] at hnd
    have ih2 := ih (st ++ [e]) ?disj hnd.2
    · rw [ih2, List.append_assoc]
      rfl
    case disj =>
      intro x hx y hy
      rcases List.mem_append.mp hy with hy1 | hy2
      · exact hdisj x (by simp [hx]) y hy1
      · have hye : y = e := by simpa using hy2
        subst hye
        intro hid
        exact hnd.1 (hid ▸ List.mem_map_of_mem (fun z => z.id) hx)

/-- Removing one present id from a store with distinct ids removes exactly
one entry. -/
theorem filter_ne_id_length :
    ∀ (es : List JournalEntry) (e : JournalEntry),
      (es.map (fun x => x.id)).Nodup → e ∈ es →
      (es.filter (fun x => !(x.id == e.id))).length = es.length - 1 := by
  intro es
  induction es with
  | nil =>
    intro e _ he
    cases he
  | cons a tail ih =>
    intro e hnd he
    rw [List.map_cons, List.nodup_cons] at hnd
    rcases List.mem_cons.mp he with rfl | hmem
    · have hkeep : tail.filter (fun x => !(x.id == e.id)) = tail := by
        apply List.filter_eq_self.mpr
        intro x hx
        simp only [Bool.not_eq_true', beq_eq_false_iff_ne, ne_eq]
        intro hid
        exact hnd.1 (hid ▸ List.mem_map_of_mem (fun z => z.id) hx)
      simp [List.filter_cons, hkeep]
    · have haid : ¬ (a.id = e.id) := by
        intro hid
        exact hnd.1 (hid ▸ List.mem_map_of_mem (fun z => z.id) hmem)
      have htl : 1 ≤ tail.length := List.length_pos.mpr (List.ne_nil_of_mem hmem)
      rw [List.filter_cons, if_pos (by simpa using haid), List.length_cons,
        ih e hnd.2 hmem, List.length_cons]
      omega

/-- Operation `getAll` returns as many entries as the store holds. -/
theorem getAll_length (st : List JournalEntry) :
    (JournalDatabase.getAll st).length = st.length :=
  ((List.mergeSort_perm _ _).trans (List.mergeSort_perm _ _)).length_eq

/-- Operation `getStats` counts exactly the entries `getAll` returns. -/
theorem getStats_totalEntries (st : List JournalEntry) :
    (JournalDatabase.getStats st).totalEntries = st.length := by
  rw [← getAll_length st]
  simp only [JournalDatabase.getStats]
  split
  · rename_i h
    simp [h]
  · rfl

/-! ## Claim theorems -/

/-- C4: for every stored entry set (hence every insertion order),
`getAll()` returns all stored entries, sorted in descending order of
their display timestamp. -/
theorem getAll_sorted_desc (st : List JournalEntry) :
    (JournalDatabase.getAll st).Perm st ∧
    List.Pairwise (fun a b => b.timestamp.millis ≤ a.timestamp.millis)
      (JournalDatabase.getAll st) := by
  constructor
  · exact (List.mergeSort_perm _ _).trans (List.mergeSort_perm _ _)
  · have htrans : ∀ a b c : JournalEntry,
        JournalDatabase.sortDesc a b = true → JournalDatabase.sortDesc b c = true →
        JournalDatabase.sortDesc a c = true := by
      intro a b c
      simp only [JournalDatabase.sortDesc, decide_eq_true_eq]
      omega
    have htotal : ∀ a b : JournalEntry,
        (JournalDatabase.sortDesc a b || JournalDatabase.sortDesc b a) = true := by
      intro a b
      simp only [JournalDatabase.sortDesc, Bool.or_eq_true, decide_eq_true_eq]
      omega
    have h := List.sorted_mergeSort htrans htotal
      (st.mergeSort JournalDatabase.indexAsc)
    exact h.imp (fun hb => by
      simpa [JournalDatabase.sortDesc, decide_eq_true_eq] using hb)

/-- C8: saving K entries with pairwise-distinct ids into an empty store
and deleting one of them leaves `getStats().totalEntries = K - 1`. -/
theorem getStats_after_delete (es : List JournalEntry) (e : JournalEntry)
    (hnd : (es.map (fun x => x.id)).Nodup) (he : e ∈ es) :
    (JournalDatabase.getStats
      (JournalDatabase.delete (JournalDatabase.saveAll [] es) e.id)).totalEntries =
    es.length - 1 := by
  rw [getStats_totalEntries]
  rw [saveAll_of_nodup_ids es [] (by intro x _ y hy; cases hy) hnd, List.nil_append]
  unfold JournalDatabase.delete
  exact filter_ne_id_length es e hnd he

/-- Witness for C8 at two concrete entries. -/
theorem getStats_after_delete_witness :
    (JournalDatabase.getStats
      (JournalDatabase.delete (JournalDatabase.saveAll [] [entryW1, entryW2])
        entryW1.id)).totalEntries = [entryW1, entryW2].length - 1 :=
  getStats_after_delete [entryW1, entryW2] entryW1 (by decide) (by decide)

/-- C9: `update(entry)` has exactly the effect of `save(entry)` in every
state, and in particular updating an entry whose id is absent inserts it. -/
theorem update_is_save (st : List JournalEntry) (e : JournalEntry)
    (h : ∀ x ∈ st, x.id ≠ e.id) :
    (∀ st2 e2, JournalDatabase.update st2 e2 = JournalDatabase.save st2 e2) ∧
    JournalDatabase.update st e = st ++ [e] :=
  ⟨fun _ _ => rfl, save_of_fresh_id st e h⟩

/-- Witness for C9: updating an absent id inserts the entry. -/
theorem update_is_save_witness :
    JournalDatabase.update [entryW2] entryW1 = [entryW2] ++ [entryW1] :=
  (update_is_save [entryW2] entryW1 (by decide)).2

/-- C6: with an empty selection, both export actions are rejected with the
no-entries validation error before any serialization, producing no output. -/
theorem handleExport_empty_selection (entries : List JournalEntry) (opts : ExportOptions)
    (passphrase confirmPassphrase : String) (now : JsDate) (randSalt randIv : Nat → Nat)
    (C : SubtleCrypto) (action : ExportAction) :
    (handleExport entries [] opts passphrase confirmPassphrase now randSalt randIv C).map
      (exportOutput action) = Except.error ExportError.noEntriesSelected := rfl

/-- C2 counterexample: the export keeps the second fragment of
`"Hello world. Second sentence."` with its leading space, so the exported
highlights differ from the claim's trimmed fragments. -/
theorem exported_highlights_not_trimmed :
    (buildExportData 5 optsJson entryC3).highlights ≠
    claimedHighlights 5 entryC3.content := by decide

/-- C2 (amended): the exported highlights are the first N period-separated
fragments of the content that contain a non-whitespace character, kept
verbatim (untrimmed), with N = 5 for the full export and N = 3 for the
preview. -/
theorem highlights_keep_untrimmed_fragments (opts : ExportOptions) (e : JournalEntry) :
    (buildExportData 5 opts e).highlights =
      ((jsSplit e.content '.').take 5).filter
        (fun h => h.data.any (fun c => !isJsWhitespace c)) ∧
    (buildExportData 3 opts e).highlights =
      ((jsSplit e.content '.').take 3).filter
        (fun h => h.data.any (fun c => !isJsWhitespace c)) := by
  constructor <;> exact List.filter_congr (fun h _ => highlightFilter_eq_any h)

/-- C10: for contents with enough leading blank fragments, the exported
highlights list has fewer elements than N even though N non-empty
fragments exist, both for the N = 5 export and the N = 3 preview. -/
theorem highlights_fewer_than_n :
    (((jsSplit entryC10.content '.').filter
        (fun h => h.data.any (fun c => !isJsWhitespace c))).length = 5 ∧
      (buildExportData 5 optsJson entryC10).highlights.length = 0) ∧
    (((jsSplit entryC10b.content '.').filter
        (fun h => h.data.any (fun c => !isJsWhitespace c))).length = 3 ∧
      (buildExportData 3 optsJson entryC10b).highlights.length = 0) := by decide

/-- C3: for the single §8.6 entry exported with tags included, the JSON
export is an array of one record with highlights
`["Hello world", " Second sentence"]` and tags `["Work"]`, the markdown
export contains the line `**Tags:** Work`, and the plain-text export
contains the line `Tags: Work`. -/
theorem export_format_coverage :
    (exportRecords [entryC3] ["e1"] optsJson).map (fun r => (r.highlights, r.tags)) =
      [(["Hello world", " Second sentence"], ["Work"])] ∧
    (handleExport [entryC3] ["e1"] optsJson "" "" now0 rand0 rand0 toyCrypto).map
      (fun r => r.content) =
      Except.ok (renderJsonExport (exportRecords [entryC3] ["e1"] optsJson)) ∧
    (handleExport [entryC3] ["e1"] optsMarkdown "" "" now0 rand0 rand0 toyCrypto).map
      (fun r => (jsSplit r.content '\n').contains "**Tags:** Work") = Except.ok true ∧
    (handleExport [entryC3] ["e1"] optsText "" "" now0 rand0 rand0 toyCrypto).map
      (fun r => (jsSplit r.content '\n').contains "Tags: Work") = Except.ok true := by
  refine ⟨by decide, by rfl, by rfl, by rfl⟩

/-- C5: without the encryption step, the serialized export content is a
pure function of the entry list and options — it does not depend on the
wall clock (which only enters the suggested filename), on the random
source, or on the crypto implementation, so serializing twice yields
byte-identical output. -/
theorem export_content_wallclock_independent (entries : List JournalEntry)
    (selectedIds : List String) (opts : ExportOptions)
    (passphrase confirmPassphrase : String) (now1 now2 : JsDate)
    (r1 r2 r3 r4 : Nat → Nat) (Ca Cb : SubtleCrypto)
    (henc : opts.encrypt = false) :
    (handleExport entries selectedIds opts passphrase confirmPassphrase now1 r1 r2 Ca).map
      (fun r => r.content) =
    (handleExport entries selectedIds opts passphrase confirmPassphrase now2 r3 r4 Cb).map
      (fun r => r.content) := by
  unfold handleExport
  rw [henc]
  simp only [Bool.false_eq_true, false_and, if_false]
  by_cases h0 : selectedIds.length = 0
  · rw [if_pos h0, if_pos h0]
  · rw [if_neg h0, if_neg h0]
    simp only [Except.map]

/-- Witness for C5: the same export at two different instants. -/
theorem export_content_wallclock_independent_witness :
    (handleExport [entryC3] ["e1"] optsJson "" "" now0 rand0 rand0 toyCrypto).map
      (fun r => r.content) =
    (handleExport [entryC3] ["e1"] optsJson "" "" ⟨0⟩ rand0 rand0 toyCrypto).map
      (fun r => r.content) :=
  export_content_wallclock_independent [entryC3] ["e1"] optsJson "" "" now0 ⟨0⟩
    rand0 rand0 rand0 rand0 toyCrypto toyCrypto rfl

/-- C1: decrypting the envelope produced by `encryptData` with the same
passphrase recovers the plaintext exactly, and with a different
passphrase decryption fails with no plaintext. WebCrypto's AES-GCM and
PBKDF2 enter as hypotheses: round-trip correctness of AES-GCM at the
derived key, byte-valued ciphertexts, authentication failure under any
other key, and collision-freedom of the key derivation at this salt. -/
theorem encryptData_decryptData_roundtrip (C : SubtleCrypto)
    (randSalt randIv : Nat → Nat) (data passphrase wrongPassphrase : String)
    (hdec : C.aesGcmDecrypt (deriveKey C passphrase (getRandomValues 16 randSalt))
        (getRandomValues 12 randIv)
        (C.aesGcmEncrypt (deriveKey C passphrase (getRandomValues 16 randSalt))
          (getRandomValues 12 randIv) (textEncode data)) = some (textEncode data))
    (hct : ∀ b ∈ C.aesGcmEncrypt (deriveKey C passphrase (getRandomValues 16 randSalt))
        (getRandomValues 12 randIv) (textEncode data), b < 256)
    (hwrong : wrongPassphrase ≠ passphrase)
    (hkdf : wrongPassphrase ≠ passphrase →
        C.pbkdf2Sha256 wrongPassphrase (getRandomValues 16 randSalt) 100000 32 ≠
        deriveKey C passphrase (getRandomValues 16 randSalt))
    (hauth : ∀ key2, key2 ≠ deriveKey C passphrase (getRandomValues 16 randSalt) →
        C.aesGcmDecrypt key2 (getRandomValues 12 randIv)
          (C.aesGcmEncrypt (deriveKey C passphrase (getRandomValues 16 randSalt))
            (getRandomValues 12 randIv) (textEncode data)) = none) :
    decryptData C (encryptData C randSalt randIv data passphrase) passphrase =
      some data ∧
    decryptData C (encryptData C randSalt randIv data passphrase) wrongPassphrase =
      none := by
  have hsalt : atob (btoa (getRandomValues 16 randSalt)) =
      some (getRandomValues 16 randSalt) :=
    atob_btoa _ (getRandomValues_lt 16 randSalt)
  have hiv : atob (btoa (getRandomValues 12 randIv)) =
      some (getRandomValues 12 randIv) :=
    atob_btoa _ (getRandomValues_lt 12 randIv)
  have hc : atob (btoa (C.aesGcmEncrypt
      (deriveKey C passphrase (getRandomValues 16 randSalt))
      (getRandomValues 12 randIv) (textEncode data))) =
      some (C.aesGcmEncrypt (deriveKey C passphrase (getRandomValues 16 randSalt))
        (getRandomValues 12 randIv) (textEncode data)) :=
    atob_btoa _ hct
  constructor
  · simp only [decryptData, encryptData, hsalt, hiv, hc]
    rw [show C.pbkdf2Sha256 passphrase (getRandomValues 16 randSalt) 100000 32 =
        deriveKey C passphrase (getRandomValues 16 randSalt) from rfl]
    rw [hdec]
    exact utf8DecodeString_textEncode data
  · simp only [decryptData, encryptData, hsalt, hiv, hc]
    rw [hauth _ (hkdf hwrong)]

/-- Witness for C1: the concrete crypto instance at plaintext `"hi"`,
passphrase `"a"`, wrong passphrase `"b"`. -/
theorem encryptData_decryptData_roundtrip_witness :
    decryptData toyCrypto (encryptData toyCrypto rand0 rand0 "hi" "a") "a" =
      some "hi" ∧
    decryptData toyCrypto (encryptData toyCrypto rand0 rand0 "hi" "a") "b" = none :=
  encryptData_decryptData_roundtrip toyCrypto rand0 rand0 "hi" "a" "b"
    (toyCrypto_decrypt_encrypt _ _ _)
    (by decide)
    (by decide)
    (fun _ => by decide)
    (fun key2 hne => toyCrypto_decrypt_wrong _ key2 _ _ hne)

/-- C7: the envelope produced by `encryptData` carries the tags
`AES-GCM` and `PBKDF2-SHA256`, iteration count 100000, a 16-byte salt, a
12-byte IV and the AES-GCM ciphertext, each as standard base64 text, and
the derived key is 256 bits (32 bytes), assuming the platform returns
keys of the requested length and byte-valued ciphertexts. -/
theorem encryptData_envelope_shape (C : SubtleCrypto)
    (randSalt randIv : Nat → Nat) (data passphrase : String)
    (hlen : ∀ p s i l, (C.pbkdf2Sha256 p s i l).length = l)
    (hct : ∀ b ∈ C.aesGcmEncrypt (deriveKey C passphrase (getRandomValues 16 randSalt))
        (getRandomValues 12 randIv) (textEncode data), b < 256) :
    (encryptData C randSalt randIv data passphrase).alg = "AES-GCM" ∧
    (encryptData C randSalt randIv data passphrase).kdf = "PBKDF2-SHA256" ∧
    (encryptData C randSalt randIv data passphrase).iterations = 100000 ∧
    atob (encryptData C randSalt randIv data passphrase).salt =
      some (getRandomValues 16 randSalt) ∧
    (getRandomValues 16 randSalt).length = 16 ∧
    atob (encryptData C randSalt randIv data passphrase).iv =
      some (getRandomValues 12 randIv) ∧
    (getRandomValues 12 randIv).length = 12 ∧
    atob (encryptData C randSalt randIv data passphrase).ciphertext =
      some (C.aesGcmEncrypt (deriveKey C passphrase (getRandomValues 16 randSalt))
        (getRandomValues 12 randIv) (textEncode data)) ∧
    (deriveKey C passphrase (getRandomValues 16 randSalt)).length = 32 :=
  ⟨rfl, rfl, rfl,
    atob_btoa _ (getRandomValues_lt 16 randSalt), getRandomValues_length 16 randSalt,
    atob_btoa _ (getRandomValues_lt 12 randIv), getRandomValues_length 12 randIv,
    atob_btoa _ hct, hlen passphrase (getRandomValues 16 randSalt) 100000 32⟩

/-- Witness for C7: the concrete crypto instance at plaintext `"hi"` and
passphrase `"pw"`. -/
theorem encryptData_envelope_shape_witness :
    (encryptData toyCrypto rand0 rand0 "hi" "pw").alg = "AES-GCM" ∧
    (encryptData toyCrypto rand0 rand0 "hi" "pw").kdf = "PBKDF2-SHA256" ∧
    (encryptData toyCrypto rand0 rand0 "hi" "pw").iterations = 100000 ∧
    atob (encryptData toyCrypto rand0 rand0 "hi" "pw").salt =
      some (getRandomValues 16 rand0) ∧
    (getRandomValues 16 rand0).length = 16 ∧
    atob (encryptData toyCrypto rand0 rand0 "hi" "pw").iv =
      some (getRandomValues 12 rand0) ∧
    (getRandomValues 12 rand0).length = 12 ∧
    atob (encryptData toyCrypto rand0 rand0 "hi" "pw").ciphertext =
      some (toyCrypto.aesGcmEncrypt
        (deriveKey toyCrypto "pw" (getRandomValues 16 rand0))
        (getRandomValues 12 rand0) (textEncode "hi")) ∧
    (deriveKey toyCrypto "pw" (getRandomValues 16 rand0)).length = 32 :=
  encryptData_envelope_shape toyCrypto rand0 rand0 "hi" "pw"
    toyCrypto_kdf_length (by decide)
